import Mathlib

/-!
# nsumount

A shallow embedding of `host/nsumount/nsumount.c`: the program joins the mount
namespace of a process and unmounts a list of paths there.

The kernel is an arbitrary deterministic state machine answering the three
system calls the program makes; the process carries the kernel state, the
lines it has written to the error stream and the record of the calls it made.
The C library functions the program calls (`atoi`, `sprintf` with `%d`,
`perror`, `exit`) are embedded after ISO C and glibc on LP64 Linux.
-/

namespace Nsumount

/-! ## The C library -/

/-- Value of `EXIT_FAILURE` in `stdlib.h` (glibc). -/
def EXIT_FAILURE : Int := 1

/-- Value of `O_RDONLY` in `fcntl.h` (Linux). -/
def O_RDONLY : Int := 0

/-- Smallest value of a C `int` (32 bits). -/
def INT_MIN : Int := -2147483648

/-- Largest value of a C `int` (32 bits). -/
def INT_MAX : Int := 2147483647

/-- Smallest value of a C `long` (64 bits). -/
def LONG_MIN : Int := -9223372036854775808

/-- Largest value of a C `long` (64 bits). -/
def LONG_MAX : Int := 9223372036854775807

/-- The `isspace` test of the C locale: space, tab, newline, vertical tab, form feed, return. -/
def isspace (c : Char) : Bool :=
  c = ' ' ∨ c = '\t' ∨ c = '\n' ∨ c = Char.ofNat 11 ∨ c = Char.ofNat 12 ∨ c = '\r'

/-- The `isdigit` test: one of the ten decimal digits. -/
def isdigit (c : Char) : Bool :=
  '0'.toNat ≤ c.toNat ∧ c.toNat ≤ '9'.toNat

/-- The value of a decimal digit character. -/
def digit_val (c : Char) : Nat := c.toNat - '0'.toNat

/-- The digit loop of `strtol` in base 10: consumes the longest run of digits at the
front of the text, accumulating its value, and stops at the first other character. -/
def strtol_digits : List Char → Nat → Nat
  | [], acc => acc
  | c :: cs, acc => if isdigit c then strtol_digits cs (acc * 10 + digit_val c) else acc

/-- An out-of-range magnitude makes `strtol` return `LONG_MAX` or `LONG_MIN`. -/
def clamp_long (v : Int) : Int :=
  if v < LONG_MIN then LONG_MIN else if LONG_MAX < v then LONG_MAX else v

/-- The call `strtol(nptr, NULL, 10)`: skip white space, take an optional sign, read the digits.
With no digit at that place no conversion is performed and the value is zero. -/
def strtol10 (nptr : List Char) : Int :=
  match nptr.dropWhile isspace with
  | [] => 0
  | c :: cs =>
    if c = '-' then clamp_long (-(strtol_digits cs 0 : Int))
    else if c = '+' then clamp_long (strtol_digits cs 0 : Int)
    else clamp_long (strtol_digits (c :: cs) 0 : Int)

/-- Conversion of a `long` to `int`: the low 32 bits, read as two's complement. -/
def long_to_int (v : Int) : Int :=
  (v + 2147483648) % 4294967296 - 2147483648

/-- The C library's `atoi`, which glibc defines as `(int) strtol (nptr, NULL, 10)`. -/
def atoi (nptr : String) : Int := long_to_int (strtol10 nptr.data)

/-- The text `printf` produces for the conversion `%d`. -/
def fmt_d (n : Int) : String := toString n

/-- The call `sprintf(file, "/proc/%d/ns/mnt", pid)`: the text stored in `file`. -/
def sprintf_proc_ns_mnt (pid : Int) : String := "/proc/" ++ fmt_d pid ++ "/ns/mnt"

/-- Size in bytes of the buffer `char file[64]`. -/
def FILE_BUF_SIZE : Nat := 64

/-! ## The kernel and the process -/

/-- The system calls the program makes, with their arguments. -/
inductive Syscall where
  | sys_open (pathname : String) (flags : Int)
  | sys_setns (fd : Int) (nstype : Int)
  | sys_umount (target : String)
  deriving DecidableEq, Repr

/-- The operating system seen by the program: how a system call changes the system state and
what it returns, the calling thread's `errno` in a state (the program reads it, through `perror`,
only right after a call that failed), and the text `strerror` gives for an error number. -/
structure OS (σ : Type) where
  syscall : Syscall → σ → Int × σ
  errno : σ → Int
  strerror : Int → String

/-- One system call as it happened: the call, the value it returned, and `errno` after it. -/
structure Event where
  call : Syscall
  ret : Int
  errno : Int
  deriving DecidableEq, Repr

/-- The running process: the system state, what it has written to the error stream (one entry for
each `fprintf` or `perror` call, in order), and the system calls it has made (in order). -/
structure Proc (σ : Type) where
  os : σ
  stderr : List String
  trace : List Event

/-- How the process ended: its exit status and its final state. -/
structure Outcome (σ : Type) where
  status : Int
  proc : Proc σ

/-- The process at the start of `main`. -/
def Proc.start {σ : Type} (s : σ) : Proc σ := ⟨s, [], []⟩

/-- Perform a system call: the kernel answers, and the call is recorded. -/
def Proc.sys {σ : Type} (O : OS σ) (c : Syscall) (p : Proc σ) : Int × Proc σ :=
  let r := O.syscall c p.os
  (r.1, ⟨r.2, p.stderr, p.trace ++ [⟨c, r.1, O.errno r.2⟩]⟩)

/-- Write a text to the error stream. -/
def Proc.write_stderr {σ : Type} (text : String) (p : Proc σ) : Proc σ :=
  ⟨p.os, p.stderr ++ [text], p.trace⟩

/-- The line `perror(s)` writes when `errno` describes as `msg` (ISO C 7.21.10.4): the string `s`
followed by a colon and a space, but only when `s` is not the empty string; then the message and a
newline. -/
def perror_line (s : String) (msg : String) : String :=
  (if s = "" then "" else s ++ ": ") ++ msg ++ "\n"

/-- The C library's `perror`. -/
def perror {σ : Type} (O : OS σ) (s : String) (p : Proc σ) : Proc σ :=
  p.write_stderr (perror_line s (O.strerror (O.errno p.os)))

/-- The C library's `exit`. -/
def exit {σ : Type} (status : Int) (p : Proc σ) : Outcome σ := ⟨status, p⟩

/-- The macro `errExit(msg)`: `perror(msg)` and then `exit(EXIT_FAILURE)`. -/
def errExit {σ : Type} (O : OS σ) (msg : String) (p : Proc σ) : Outcome σ :=
  exit EXIT_FAILURE (perror O msg p)

/-- The text `%s` prints for `argv[0]`. When `argc` is 0 that pointer is null, which glibc
prints as `(null)`. -/
def argv0 (argv : List String) : String := argv.headD "(null)"

/-! ## The program -/

/-- The loop `for (int i = 2; i < argc; i++)` of `main`, entered at index `i` with the flag
`error`; `n` bounds the number of iterations and `main` passes `argc - 2`. Returns the flag and
the process after the loop. -/
def umount_loop {σ : Type} (O : OS σ) (argv : List String) :
    Nat → Nat → Int → Proc σ → Int × Proc σ
  | 0, _, error, p => (error, p)
  | n + 1, i, error, p =>
    if h : i < argv.length then
      let r := p.sys O (.sys_umount argv[i])
      if r.1 ≠ 0 then
        umount_loop O argv n (i + 1) 1 (perror O argv[i] r.2)
      else
        umount_loop O argv n (i + 1) error r.2
    else (error, p)

/-- The function `main` of nsumount.c, run on the argument vector `argv` (so `argc` is its
length) from the system state `s`. -/
def main {σ : Type} (O : OS σ) (argv : List String) (s : σ) : Outcome σ :=
  let p0 := Proc.start s
  if h : argv.length < 3 then
    exit EXIT_FAILURE (p0.write_stderr (argv0 argv ++ " pid mount ...\n"))
  else
    let pid := atoi (argv[1])
    let file := sprintf_proc_ns_mnt pid
    let r1 := p0.sys O (.sys_open file O_RDONLY)
    let fd := r1.1
    if fd = -1 then
      errExit O "open" r1.2
    else
      let r2 := r1.2.sys O (.sys_setns fd 0)
      if r2.1 = -1 then
        errExit O "setns" r2.2
      else
        let r3 := umount_loop O argv (argv.length - 2) 2 0 r2.2
        if r3.1 ≠ 0 then
          exit EXIT_FAILURE r3.2
        else
          exit 0 r3.2

/-! ## A sample system -/

/-- A sample kernel: `open` gives descriptor 3 for `/proc/1/ns/mnt` and fails
with `ENOENT` otherwise; `setns` succeeds on descriptor 3; `umount` succeeds exactly on `/mnt/a`
and `/mnt/b`, fails with `ENOENT` on the empty path and with `EINVAL` on any other. The state is
the `errno` of the calling thread. -/
def demoOS : OS Int where
  syscall := fun c e =>
    match c with
    | .sys_open pathname _ => if pathname = "/proc/1/ns/mnt" then (3, e) else (-1, 2)
    | .sys_setns fd _ => if fd = 3 then (0, e) else (-1, 9)
    | .sys_umount target =>
      if target = "/mnt/a" ∨ target = "/mnt/b" then (0, e)
      else if target = "" then (-1, 2) else (-1, 22)
  errno := fun e => e
  strerror := fun e =>
    if e = 2 then "No such file or directory"
    else if e = 9 then "Bad file descriptor"
    else if e = 22 then "Invalid argument"
    else if e = 1 then "Operation not permitted"
    else "Unknown error"

/-- A sample kernel in which the caller lacks the privilege to switch namespaces: as `demoOS`, but
`setns` fails with `EPERM`. -/
def demoOS_noperm : OS Int where
  syscall := fun c e =>
    match c with
    | .sys_setns _ _ => (-1, 1)
    | c => demoOS.syscall c e
  errno := demoOS.errno
  strerror := demoOS.strerror

/-! ## Vocabulary of the statements -/

/-- The unmount loop told over the list of paths still to process: the same body as
`umount_loop`, by recursion on the list instead of the index. -/
def umount_paths {σ : Type} (O : OS σ) : List String → Int → Proc σ → Int × Proc σ
  | [], error, p => (error, p)
  | path :: rest, error, p =>
    let r := p.sys O (.sys_umount path)
    if r.1 ≠ 0 then
      umount_paths O rest 1 (perror O path r.2)
    else
      umount_paths O rest error r.2

/-- The kernel's answers when the paths are unmounted one after another from state `s`. -/
def umount_events {σ : Type} (O : OS σ) : List String → σ → List Event
  | [], _ => []
  | path :: rest, s =>
    let r := O.syscall (.sys_umount path) s
    ⟨.sys_umount path, r.1, O.errno r.2⟩ :: umount_events O rest r.2

/-- The system state after the paths were unmounted one after another from state `s`. -/
def umount_final {σ : Type} (O : OS σ) : List String → σ → σ
  | [], s => s
  | path :: rest, s => umount_final O rest (O.syscall (.sys_umount path) s).2

/-- A failed unmount: for an event that is a `umount` whose return value is not 0, the path and
the `errno` it left. -/
def Event.failed_umount (e : Event) : Option (String × Int) :=
  match e.call with
  | .sys_umount target => if e.ret ≠ 0 then some (target, e.errno) else none
  | _ => none

/-- The failed unmounts of a run, in the order they happened. -/
def failed_umounts (trace : List Event) : List (String × Int) :=
  trace.filterMap Event.failed_umount

/-- Whether a text begins, after optional white space and an optional sign, with a decimal
digit. -/
def begins_numeric (a : String) : Bool :=
  match a.data.dropWhile isspace with
  | [] => false
  | c :: cs =>
    if c = '-' ∨ c = '+' then
      match cs with
      | [] => false
      | d :: _ => isdigit d
    else isdigit c

/-! ## Decimal text -/

theorem digitChar_decimal (d : Nat) (h : d < 10) :
    isdigit (Nat.digitChar d) = true ∧ digit_val (Nat.digitChar d) = d := by
  interval_cases d <;> decide

theorem isdigit_not_space_or_sign (c : Char) (h : isdigit c = true) :
    isspace c = false ∧ c ≠ '-' ∧ c ≠ '+' := by
  have hc : 48 ≤ c.toNat ∧ c.toNat ≤ 57 := by simpa [isdigit] using h
  have hne : ∀ d : Char, d.toNat < 48 → c ≠ d := by
    intro d hd hcd
    rw [hcd] at hc
    omega
  refine ⟨?_, hne _ (by decide), hne _ (by decide)⟩
  simp only [isspace, Bool.decide_or, Bool.or_eq_false_iff, decide_eq_false_iff_not]
  exact ⟨hne _ (by decide), hne _ (by decide), hne _ (by decide), hne _ (by decide),
    hne _ (by decide), hne _ (by decide)⟩

/-- The value of a run of decimal digits read from the left, starting from `acc`. -/
theorem strtol_digits_append (xs rest : List Char) :
    ∀ acc : Nat, (∀ c ∈ xs, isdigit c = true) →
      strtol_digits (xs ++ rest) acc =
        strtol_digits rest (xs.foldl (fun a c => a * 10 + digit_val c) acc) := by
  induction xs with
  | nil => intro acc _; rfl
  | cons x xs ih =>
    intro acc hx
    have h1 : isdigit x = true := hx x (by simp)
    simp only [List.cons_append, strtol_digits, h1, if_true, List.foldl_cons]
    exact ih _ (fun c hc => hx c (by simp [hc]))

/-- What the digit generator of `Nat.repr` produces: a non-empty run of decimal digits whose
value is the number, no longer than the number of decimal places of any bound on it. -/
theorem toDigitsCore_decimal (fuel : Nat) :
    ∀ (n : Nat) (ds : List Char), n < fuel →
      ∃ xs : List Char, Nat.toDigitsCore 10 fuel n ds = xs ++ ds ∧
        (∀ c ∈ xs, isdigit c = true) ∧
        xs.foldl (fun a c => a * 10 + digit_val c) 0 = n ∧
        xs ≠ [] ∧
        (∀ k, 0 < k → n < 10 ^ k → xs.length ≤ k) := by
  induction fuel with
  | zero => intro n ds h; omega
  | succ fuel ih =>
    intro n ds h
    have hd := digitChar_decimal (n % 10) (Nat.mod_lt _ (by decide))
    by_cases h0 : n / 10 = 0
    · refine ⟨[Nat.digitChar (n % 10)], ?_, ?_, ?_, ?_, ?_⟩
      · simp [Nat.toDigitsCore, h0]
      · intro c hc
        simp only [List.mem_singleton] at hc
        rw [hc]; exact hd.1
      · simp only [List.foldl_cons, List.foldl_nil, hd.2]
        omega
      · simp
      · intro k hk _
        simpa using hk
    · obtain ⟨xs, hxs, hdig, hval, _, hlen⟩ :=
        ih (n / 10) (Nat.digitChar (n % 10) :: ds) (by omega)
      refine ⟨xs ++ [Nat.digitChar (n % 10)], ?_, ?_, ?_, ?_, ?_⟩
      · simp [Nat.toDigitsCore, h0, hxs]
      · intro c hc
        rcases List.mem_append.mp hc with hc | hc
        · exact hdig c hc
        · simp only [List.mem_singleton] at hc
          rw [hc]; exact hd.1
      · simp only [List.foldl_append, List.foldl_cons, List.foldl_nil, hval, hd.2]
        omega
      · simp
      · intro k hk hn
        cases k with
        | zero => omega
        | succ k =>
          have hk0 : 0 < k := by
            by_contra hk0
            have : k = 0 := by omega
            subst this
            simp at hn
            omega
          have hn2 : n / 10 < 10 ^ k := by
            rw [Nat.div_lt_iff_lt_mul (by decide)]
            rw [pow_succ] at hn
            exact hn
          have := hlen k hk0 hn2
          simp
          omega

theorem toString_nat_decimal (n : Nat) :
    ∃ xs : List Char, (toString n).data = xs ∧
      (∀ c ∈ xs, isdigit c = true) ∧
      xs.foldl (fun a c => a * 10 + digit_val c) 0 = n ∧
      xs ≠ [] ∧
      (∀ k, 0 < k → n < 10 ^ k → xs.length ≤ k) := by
  obtain ⟨xs, hxs, h⟩ := toDigitsCore_decimal (n + 1) n [] (by omega)
  refine ⟨xs, ?_, h⟩
  show (Nat.toDigits 10 n) = xs
  simpa [Nat.toDigits] using hxs

theorem strtol10_toString (n : Nat) : strtol10 (toString n).data = clamp_long n := by
  obtain ⟨xs, hxs, hdig, hval, hne, _⟩ := toString_nat_decimal n
  rw [hxs]
  cases xs with
  | nil => exact absurd rfl hne
  | cons c cs =>
    have hc := isdigit_not_space_or_sign c (hdig c (by simp))
    have hrun := strtol_digits_append (c :: cs) [] 0 hdig
    rw [List.append_nil, hval] at hrun
    simp only [strtol10, List.dropWhile, hc.1, hc.2.1, hc.2.2, if_false]
    rw [hrun]
    rfl

theorem atoi_toString (n : Nat) (h : n ≤ 2147483647) : atoi (toString n) = n := by
  simp only [atoi, strtol10_toString, clamp_long, long_to_int, LONG_MIN, LONG_MAX]
  have h1 : ¬ ((n : Int) < -9223372036854775808) := by omega
  have h2 : ¬ ((9223372036854775807 : Int) < n) := by omega
  simp only [h1, h2, if_false]
  omega

theorem atoi_not_numeric (a : String) (h : begins_numeric a = false) : atoi a = 0 := by
  have hz : ∀ cs : List Char, (match cs with
      | [] => false
      | d :: _ => isdigit d) = false → strtol_digits cs 0 = 0 := by
    intro cs hcs
    cases cs with
    | nil => rfl
    | cons d ds =>
      simp only at hcs
      simp [strtol_digits, hcs]
  simp only [begins_numeric] at h
  simp only [atoi, strtol10]
  cases hd : List.dropWhile isspace a.data with
  | nil => rfl
  | cons c cs =>
    rw [hd] at h
    simp only at h ⊢
    by_cases hm : c = '-'
    · have h2 := hz cs (by simpa [hm] using h)
      simp only [hm, if_true, h2]
      decide
    · by_cases hp : c = '+'
      · have h2 := hz cs (by simpa [hp] using h)
        simp only [hm, hp, if_true, if_false, h2]
        decide
      · have h2 : isdigit c = false := by simpa [hm, hp] using h
        simp only [hm, hp, if_false, strtol_digits, h2, Bool.false_eq_true]
        decide

theorem atoi_in_int_range (a : String) : INT_MIN ≤ atoi a ∧ atoi a ≤ INT_MAX := by
  simp only [atoi, long_to_int, INT_MIN, INT_MAX]
  omega

/-! ## The unmount loop -/

theorem umount_loop_eq_paths {σ : Type} (O : OS σ) (argv : List String) (n : Nat) :
    ∀ (i : Nat) (error : Int) (p : Proc σ), argv.length - i ≤ n →
      umount_loop O argv n i error p = umount_paths O (argv.drop i) error p := by
  induction n with
  | zero =>
    intro i error p h
    have hd : argv.drop i = [] := List.drop_eq_nil_of_le (by omega)
    simp [umount_loop, hd, umount_paths]
  | succ n ih =>
    intro i error p h
    by_cases hi : i < argv.length
    · have hd : argv.drop i = argv[i] :: argv.drop (i + 1) := List.drop_eq_getElem_cons hi
      rw [hd]
      simp only [umount_loop, hi, dite_true, umount_paths]
      rw [ih (i + 1) 1 _ (by omega), ih (i + 1) error _ (by omega)]
    · have hd : argv.drop i = [] := List.drop_eq_nil_of_le (by omega)
      simp [umount_loop, hi, hd, umount_paths]

theorem umount_paths_os {σ : Type} (O : OS σ) (paths : List String) :
    ∀ (error : Int) (p : Proc σ),
      (umount_paths O paths error p).2.os = umount_final O paths p.os := by
  induction paths with
  | nil => intro error p; rfl
  | cons path rest ih =>
    intro error p
    simp only [umount_paths, umount_final]
    split
    · rw [ih]; rfl
    · rw [ih]; rfl

theorem umount_paths_trace {σ : Type} (O : OS σ) (paths : List String) :
    ∀ (error : Int) (p : Proc σ),
      (umount_paths O paths error p).2.trace = p.trace ++ umount_events O paths p.os := by
  induction paths with
  | nil => intro error p; simp [umount_paths, umount_events]
  | cons path rest ih =>
    intro error p
    simp only [umount_paths, umount_events]
    split
    · rw [ih]; simp [perror, Proc.write_stderr, Proc.sys]
    · rw [ih]; simp [Proc.sys]

theorem umount_paths_stderr {σ : Type} (O : OS σ) (paths : List String) :
    ∀ (error : Int) (p : Proc σ),
      (umount_paths O paths error p).2.stderr =
        p.stderr ++ (failed_umounts (umount_events O paths p.os)).map
          (fun f => perror_line f.1 (O.strerror f.2)) := by
  induction paths with
  | nil => intro error p; simp [umount_paths, umount_events, failed_umounts]
  | cons path rest ih =>
    intro error p
    simp only [umount_paths, umount_events]
    split
    · rename_i hr
      have hr2 : (O.syscall (Syscall.sys_umount path) p.os).1 ≠ 0 := hr
      rw [ih]
      simp [perror, Proc.write_stderr, Proc.sys, failed_umounts, Event.failed_umount, hr2]
    · rename_i hr
      have hr2 : ¬ (O.syscall (Syscall.sys_umount path) p.os).1 ≠ 0 := hr
      rw [ih]
      simp only [ne_eq, not_not] at hr2
      simp [Proc.sys, failed_umounts, Event.failed_umount, hr2]

theorem umount_paths_error {σ : Type} (O : OS σ) (paths : List String) :
    ∀ (error : Int) (p : Proc σ),
      (umount_paths O paths error p).1 =
        if failed_umounts (umount_events O paths p.os) = [] then error else 1 := by
  induction paths with
  | nil => intro error p; simp [umount_paths, umount_events, failed_umounts]
  | cons path rest ih =>
    intro error p
    simp only [umount_paths, umount_events]
    split
    · rename_i hr
      have hr2 : (O.syscall (Syscall.sys_umount path) p.os).1 ≠ 0 := hr
      rw [ih]
      simp [perror, Proc.write_stderr, Proc.sys, failed_umounts, Event.failed_umount, hr2]
    · rename_i hr
      have hr2 : ¬ (O.syscall (Syscall.sys_umount path) p.os).1 ≠ 0 := hr
      rw [ih]
      simp only [ne_eq, not_not] at hr2
      simp [Proc.sys, failed_umounts, Event.failed_umount, hr2]

theorem umount_events_calls {σ : Type} (O : OS σ) (paths : List String) :
    ∀ (s : σ), (umount_events O paths s).map Event.call = paths.map Syscall.sys_umount := by
  induction paths with
  | nil => intro s; rfl
  | cons path rest ih => intro s; simp [umount_events, ih]

/-! ## The runs of `main` -/

/-- The run of `main` when the namespace is opened and joined: the two calls, then the unmount
loop over all the paths. -/
theorem main_joined {σ : Type} (O : OS σ) (prog pidarg path : String) (paths : List String)
    (s s1 s2 : σ) (fd r : Int)
    (h_open : O.syscall (.sys_open (sprintf_proc_ns_mnt (atoi pidarg)) O_RDONLY) s = (fd, s1))
    (h_fd : fd ≠ -1)
    (h_setns : O.syscall (.sys_setns fd 0) s1 = (r, s2))
    (h_r : r ≠ -1) :
    main O (prog :: pidarg :: path :: paths) s =
      ⟨if failed_umounts (umount_events O (path :: paths) s2) = [] then 0 else EXIT_FAILURE,
       ⟨umount_final O (path :: paths) s2,
        (failed_umounts (umount_events O (path :: paths) s2)).map
          (fun f => perror_line f.1 (O.strerror f.2)),
        ⟨.sys_open (sprintf_proc_ns_mnt (atoi pidarg)) O_RDONLY, fd, O.errno s1⟩ ::
          ⟨.sys_setns fd 0, r, O.errno s2⟩ :: umount_events O (path :: paths) s2⟩⟩ := by
  have hlen : ¬ (prog :: pidarg :: path :: paths).length < 3 := by simp
  have hloop := umount_loop_eq_paths O (prog :: pidarg :: path :: paths)
    ((prog :: pidarg :: path :: paths).length - 2) 2
  simp only [List.drop_succ_cons, List.drop_zero] at hloop
  simp only [main, hlen, dite_false, Proc.sys, Proc.start, h_open, h_fd, if_false,
    List.getElem_cons_succ, List.getElem_cons_zero, h_setns, h_r]
  rw [hloop _ _ (by simp)]
  have e1 := umount_paths_error O (path :: paths) 0
    ⟨s2, [], [] ++ [⟨.sys_open (sprintf_proc_ns_mnt (atoi pidarg)) O_RDONLY, fd, O.errno s1⟩] ++
      [⟨.sys_setns fd 0, r, O.errno s2⟩]⟩
  have e2 := umount_paths_os O (path :: paths) 0
    ⟨s2, [], [] ++ [⟨.sys_open (sprintf_proc_ns_mnt (atoi pidarg)) O_RDONLY, fd, O.errno s1⟩] ++
      [⟨.sys_setns fd 0, r, O.errno s2⟩]⟩
  have e3 := umount_paths_stderr O (path :: paths) 0
    ⟨s2, [], [] ++ [⟨.sys_open (sprintf_proc_ns_mnt (atoi pidarg)) O_RDONLY, fd, O.errno s1⟩] ++
      [⟨.sys_setns fd 0, r, O.errno s2⟩]⟩
  have e4 := umount_paths_trace O (path :: paths) 0
    ⟨s2, [], [] ++ [⟨.sys_open (sprintf_proc_ns_mnt (atoi pidarg)) O_RDONLY, fd, O.errno s1⟩] ++
      [⟨.sys_setns fd 0, r, O.errno s2⟩]⟩
  generalize umount_paths O (path :: paths) 0
    ⟨s2, [], [] ++ [⟨.sys_open (sprintf_proc_ns_mnt (atoi pidarg)) O_RDONLY, fd, O.errno s1⟩] ++
      [⟨.sys_setns fd 0, r, O.errno s2⟩]⟩ = res at e1 e2 e3 e4
  obtain ⟨err, ⟨os, se, tr⟩⟩ := res
  simp only at e1 e2 e3 e4
  subst e1 e2 e3 e4
  by_cases hf : failed_umounts (umount_events O (path :: paths) s2) = []
  · simp [hf, exit]
  · simp [hf, exit, EXIT_FAILURE]

/-- The run of `main` when the open of the namespace path returns -1. -/
theorem main_open_failed {σ : Type} (O : OS σ) (prog pidarg path : String)
    (paths : List String) (s s1 : σ)
    (h_open : O.syscall (.sys_open (sprintf_proc_ns_mnt (atoi pidarg)) O_RDONLY) s = (-1, s1)) :
    main O (prog :: pidarg :: path :: paths) s =
      ⟨EXIT_FAILURE,
       ⟨s1, [perror_line "open" (O.strerror (O.errno s1))],
        [⟨.sys_open (sprintf_proc_ns_mnt (atoi pidarg)) O_RDONLY, -1, O.errno s1⟩]⟩⟩ := by
  have hlen : ¬ (prog :: pidarg :: path :: paths).length < 3 := by simp
  simp only [main, hlen, dite_false, Proc.sys, Proc.start, h_open, if_true,
    List.getElem_cons_succ, List.getElem_cons_zero, errExit, exit, perror, Proc.write_stderr]
  simp

/-- The run of `main` when the open succeeds and setns returns -1. -/
theorem main_setns_failed {σ : Type} (O : OS σ) (prog pidarg path : String)
    (paths : List String) (s s1 s2 : σ) (fd : Int)
    (h_open : O.syscall (.sys_open (sprintf_proc_ns_mnt (atoi pidarg)) O_RDONLY) s = (fd, s1))
    (h_fd : fd ≠ -1)
    (h_setns : O.syscall (.sys_setns fd 0) s1 = (-1, s2)) :
    main O (prog :: pidarg :: path :: paths) s =
      ⟨EXIT_FAILURE,
       ⟨s2, [perror_line "setns" (O.strerror (O.errno s2))],
        [⟨.sys_open (sprintf_proc_ns_mnt (atoi pidarg)) O_RDONLY, fd, O.errno s1⟩,
         ⟨.sys_setns fd 0, -1, O.errno s2⟩]⟩⟩ := by
  have hlen : ¬ (prog :: pidarg :: path :: paths).length < 3 := by simp
  simp only [main, hlen, dite_false, Proc.sys, Proc.start, h_open, h_fd, if_false, h_setns,
    if_true, List.getElem_cons_succ, List.getElem_cons_zero, errExit, exit, perror,
    Proc.write_stderr]
  simp

/-- With at least two positional arguments the first system call of `main` is the open of the
path built from `atoi(argv[1])`, and every line on the error stream was written by `perror`. -/
theorem main_with_arguments {σ : Type} (O : OS σ) (prog pidarg path : String)
    (paths : List String) (s : σ) :
    (main O (prog :: pidarg :: path :: paths) s).proc.trace.head?.map Event.call =
        some (.sys_open (sprintf_proc_ns_mnt (atoi pidarg)) O_RDONLY) ∧
      ∀ line ∈ (main O (prog :: pidarg :: path :: paths) s).proc.stderr,
        ∃ msg errnum, msg ∈ "open" :: "setns" :: path :: paths ∧
          line = perror_line msg (O.strerror errnum) := by
  rcases h_open : O.syscall (.sys_open (sprintf_proc_ns_mnt (atoi pidarg)) O_RDONLY) s with
    ⟨fd, s1⟩
  by_cases h_fd : fd = -1
  · subst h_fd
    rw [main_open_failed O prog pidarg path paths s s1 h_open]
    refine ⟨rfl, ?_⟩
    intro line hl
    simp only [List.mem_singleton] at hl
    exact ⟨"open", O.errno s1, by simp, hl⟩
  · rcases h_setns : O.syscall (.sys_setns fd 0) s1 with ⟨r, s2⟩
    by_cases h_r : r = -1
    · subst h_r
      rw [main_setns_failed O prog pidarg path paths s s1 s2 fd h_open h_fd h_setns]
      refine ⟨rfl, ?_⟩
      intro line hl
      simp only [List.mem_singleton] at hl
      exact ⟨"setns", O.errno s2, by simp, hl⟩
    · rw [main_joined O prog pidarg path paths s s1 s2 fd r h_open h_fd h_setns h_r]
      refine ⟨rfl, ?_⟩
      intro line hl
      simp only [List.mem_map] at hl
      obtain ⟨f, hf, rfl⟩ := hl
      refine ⟨f.1, f.2, ?_, rfl⟩
      have hcalls := umount_events_calls O (path :: paths) s2
      simp only [failed_umounts, List.mem_filterMap] at hf
      obtain ⟨e, he, hef⟩ := hf
      have hec : e.call ∈ (path :: paths).map Syscall.sys_umount := by
        rw [← hcalls]; exact List.mem_map_of_mem _ he
      obtain ⟨t, ht, htc⟩ := List.mem_map.mp hec
      obtain ⟨call, ret, errno⟩ := e
      simp only at htc
      subst htc
      simp only [Event.failed_umount] at hef
      split at hef
      · simp only [Option.some.injEq] at hef
        rw [← hef]
        simp only [List.mem_cons] at ht ⊢
        tauto
      · simp at hef

theorem utf8Size_ascii (c : Char) (h : c.toNat < 128) : c.utf8Size = 1 := by
  have h1 : c.val ≤ 127 := by
    show c.val.toNat ≤ 127
    simp only [Char.toNat] at h
    omega
  simp [Char.utf8Size, h1]

theorem utf8ByteSize_ascii (l : List Char) (h : ∀ c ∈ l, c.toNat < 128) :
    String.utf8ByteSize ⟨l⟩ = l.length := by
  induction l with
  | nil => rfl
  | cons c cs ih =>
    have h1 := utf8Size_ascii c (h c (by simp))
    have h2 := ih (fun d hd => h d (by simp [hd]))
    simp only [String.utf8ByteSize, String.utf8ByteSize.go, List.length_cons] at h2 ⊢
    omega

/-- The text of `%d` for a value of type `int`: at most 11 characters, all of them ASCII. -/
theorem fmt_d_int (pid : Int) (h1 : INT_MIN ≤ pid) (h2 : pid ≤ INT_MAX) :
    (fmt_d pid).data.length ≤ 11 ∧ ∀ c ∈ (fmt_d pid).data, c.toNat < 128 := by
  have hasc : ∀ c : Char, isdigit c = true → c.toNat < 128 := by
    intro c hc
    have : 48 ≤ c.toNat ∧ c.toNat ≤ 57 := by simpa [isdigit] using hc
    omega
  simp only [INT_MIN, INT_MAX] at h1 h2
  cases pid with
  | ofNat m =>
    obtain ⟨xs, hxs, hdig, _, _, hlen⟩ := toString_nat_decimal m
    have hd : (fmt_d (Int.ofNat m)).data = xs := hxs
    rw [hd]
    have hm : m < 10 ^ 10 := by
      have : (m : Int) ≤ 2147483647 := h2
      omega
    exact ⟨by have := hlen 10 (by decide) hm; omega, fun c hc => hasc c (hdig c hc)⟩
  | negSucc m =>
    obtain ⟨xs, hxs, hdig, _, _, hlen⟩ := toString_nat_decimal (m + 1)
    have hd : (fmt_d (Int.negSucc m)).data = '-' :: xs := by
      show ("-" ++ toString (m + 1)).data = '-' :: xs
      rw [String.data_append, hxs]; rfl
    rw [hd]
    have hm : m + 1 < 10 ^ 10 := by
      have h3 : (-2147483648 : Int) ≤ Int.negSucc m := h1
      rw [Int.negSucc_eq] at h3
      omega
    refine ⟨by have := hlen 10 (by decide) hm; simp; omega, ?_⟩
    intro c hc
    rcases List.mem_cons.mp hc with hc | hc
    · rw [hc]; decide
    · exact hasc c (hdig c hc)

/-- The first positional argument reaches `main` only through `atoi`. -/
theorem main_depends_on_atoi {σ : Type} (O : OS σ) (prog a b : String) (rest : List String)
    (s : σ) (h : atoi a = atoi b) :
    main O (prog :: a :: rest) s = main O (prog :: b :: rest) s := by
  by_cases hlen : (prog :: a :: rest).length < 3
  · have hlen2 : (prog :: b :: rest).length < 3 := by simpa using hlen
    simp only [main, hlen, hlen2, dite_true, argv0, List.headD_cons]
  · have hlen2 : ¬ (prog :: b :: rest).length < 3 := by simpa using hlen
    have la := umount_loop_eq_paths O (prog :: a :: rest) ((prog :: a :: rest).length - 2) 2
    have lb := umount_loop_eq_paths O (prog :: b :: rest) ((prog :: b :: rest).length - 2) 2
    simp only [List.drop_succ_cons, List.drop_zero] at la lb
    simp only [main, hlen, hlen2, dite_false, List.getElem_cons_succ, List.getElem_cons_zero, h]
    rw [la _ _ (by simp), lb _ _ (by simp)]

/-- When every umount of a run returns what `outcome` gives for its path, and a failing one
leaves the `errno` that `outcome` gives, the failed unmounts are read off the list of paths. -/
theorem failed_umounts_of_outcome {σ : Type} (O : OS σ) (outcome : String → Int × Int)
    (paths : List String) :
    ∀ s : σ,
      (∀ e ∈ umount_events O paths s, ∀ target, e.call = Syscall.sys_umount target →
        e.ret = (outcome target).1 ∧ (e.ret ≠ 0 → e.errno = (outcome target).2)) →
      failed_umounts (umount_events O paths s) =
        paths.filterMap
          (fun t => if (outcome t).1 ≠ 0 then some (t, (outcome t).2) else none) := by
  induction paths with
  | nil => intro s _; rfl
  | cons path rest ih =>
    intro s h
    have hhead := h ⟨.sys_umount path, (O.syscall (.sys_umount path) s).1,
      O.errno (O.syscall (.sys_umount path) s).2⟩ (by simp [umount_events]) path rfl
    have htail := ih (O.syscall (.sys_umount path) s).2 (fun e he target hc =>
      h e (by simp [umount_events, he]) target hc)
    simp only at hhead
    simp only [failed_umounts] at htail
    by_cases hr : (O.syscall (.sys_umount path) s).1 = 0
    · have ho : (outcome path).1 = 0 := by rw [← hhead.1]; exact hr
      simp [failed_umounts, umount_events, Event.failed_umount, hr, ho, htail]
    · have ho : (outcome path).1 ≠ 0 := by rw [← hhead.1]; exact hr
      simp [failed_umounts, umount_events, Event.failed_umount, hr, ho, htail, hhead.2 hr]

/-- The failed unmounts of two runs over permuted lists of paths, with the same answer for each
path, are permutations of each other. -/
theorem failed_umounts_perm {σ : Type} (O : OS σ) (outcome : String → Int × Int)
    (paths1 paths2 : List String) (s1 s2 : σ) (hperm : paths1.Perm paths2)
    (h1 : ∀ e ∈ umount_events O paths1 s1, ∀ target, e.call = Syscall.sys_umount target →
      e.ret = (outcome target).1 ∧ (e.ret ≠ 0 → e.errno = (outcome target).2))
    (h2 : ∀ e ∈ umount_events O paths2 s2, ∀ target, e.call = Syscall.sys_umount target →
      e.ret = (outcome target).1 ∧ (e.ret ≠ 0 → e.errno = (outcome target).2)) :
    (failed_umounts (umount_events O paths1 s1)).Perm
      (failed_umounts (umount_events O paths2 s2)) := by
  rw [failed_umounts_of_outcome O outcome paths1 s1 h1,
    failed_umounts_of_outcome O outcome paths2 s2 h2]
  exact hperm.filterMap _

/-- The size of the text `sprintf` stores in `file` for a `pid` of type `int`. -/
theorem sprintf_proc_ns_mnt_size (pid : Int) (h1 : INT_MIN ≤ pid) (h2 : pid ≤ INT_MAX) :
    (sprintf_proc_ns_mnt pid).length ≤ 24 ∧
      (sprintf_proc_ns_mnt pid).utf8ByteSize = (sprintf_proc_ns_mnt pid).length ∧
      (sprintf_proc_ns_mnt pid).utf8ByteSize + 1 ≤ FILE_BUF_SIZE := by
  obtain ⟨hlen, hasc⟩ := fmt_d_int pid h1 h2
  have hdata : (sprintf_proc_ns_mnt pid).data =
      "/proc/".data ++ (fmt_d pid).data ++ "/ns/mnt".data := by
    simp [sprintf_proc_ns_mnt]
  have hl : (sprintf_proc_ns_mnt pid).length ≤ 24 := by
    show (sprintf_proc_ns_mnt pid).data.length ≤ 24
    rw [hdata]
    have e1 : "/proc/".data.length = 6 := by decide
    have e2 : "/ns/mnt".data.length = 7 := by decide
    rw [List.length_append, List.length_append, e1, e2]
    omega
  have hb : (sprintf_proc_ns_mnt pid).utf8ByteSize = (sprintf_proc_ns_mnt pid).length := by
    have := utf8ByteSize_ascii (sprintf_proc_ns_mnt pid).data (by
      rw [hdata]
      intro c hc
      simp only [List.mem_append] at hc
      rcases hc with (hc | hc) | hc
      · revert c; decide
      · exact hasc c hc
      · revert c; decide)
    exact this
  refine ⟨hl, hb, ?_⟩
  rw [hb]
  simp only [FILE_BUF_SIZE]
  omega

/-- Whatever the first positional argument is, the text `main` stores in `file` fits there with
its terminating NUL. -/
theorem main_file_fits (pidarg : String) :
    (sprintf_proc_ns_mnt (atoi pidarg)).utf8ByteSize + 1 ≤ FILE_BUF_SIZE :=
  (sprintf_proc_ns_mnt_size (atoi pidarg) (atoi_in_int_range pidarg).1
    (atoi_in_int_range pidarg).2).2.2

/-- Every event of the unmount run is the umount of one of the paths. -/
theorem umount_events_are_umounts {σ : Type} (O : OS σ) (paths : List String) (s : σ) :
    ∀ e ∈ umount_events O paths s, ∃ target ∈ paths, e.call = Syscall.sys_umount target := by
  intro e he
  have hec : e.call ∈ paths.map Syscall.sys_umount := by
    rw [← umount_events_calls O paths s]; exact List.mem_map_of_mem _ he
  obtain ⟨t, ht, htc⟩ := List.mem_map.mp hec
  exact ⟨t, ht, htc.symm⟩

theorem failed_umounts_eq_nil (trace : List Event) :
    failed_umounts trace = [] ↔
      ∀ e ∈ trace, ∀ target, e.call = Syscall.sys_umount target → e.ret = 0 := by
  induction trace with
  | nil => simp [failed_umounts]
  | cons e rest ih =>
    obtain ⟨call, ret, errno⟩ := e
    cases call with
    | sys_open pathname flags =>
      simpa [failed_umounts, Event.failed_umount] using ih
    | sys_setns fd nstype =>
      simpa [failed_umounts, Event.failed_umount] using ih
    | sys_umount target =>
      by_cases hr : ret = 0
      · simpa [failed_umounts, Event.failed_umount, hr] using ih
      · simp [failed_umounts, Event.failed_umount, hr]

/-! ## The claims -/

/-- C1: with fewer than two positional arguments (`argc < 3`) `main` writes the one line
made of `argv[0]` followed by ` pid mount ...` and a newline to the error stream, exits with the
failure status, and makes no system call (no open, setns or umount); the system state is
untouched. -/
theorem usage_on_few_arguments {σ : Type} (O : OS σ) (argv : List String) (s : σ)
    (h : argv.length < 3) :
    main O argv s = ⟨EXIT_FAILURE, ⟨s, [argv0 argv ++ " pid mount ...\n"], []⟩⟩ ∧
      (∀ arg0, argv.head? = some arg0 → argv0 argv = arg0) ∧ EXIT_FAILURE ≠ 0 := by
  refine ⟨?_, ?_, by decide⟩
  · simp [main, h, exit, Proc.write_stderr, Proc.start]
  · intro arg0 h0
    cases argv with
    | nil => simp at h0
    | cons a rest => simpa [argv0] using h0

theorem usage_on_few_arguments_witness :
    ["nsumount", "1"].length < 3 ∧
      (main demoOS ["nsumount", "1"] 0 =
          ⟨EXIT_FAILURE, ⟨0, [argv0 ["nsumount", "1"] ++ " pid mount ...\n"], []⟩⟩ ∧
        (∀ arg0, ["nsumount", "1"].head? = some arg0 → argv0 ["nsumount", "1"] = arg0) ∧
        EXIT_FAILURE ≠ 0) :=
  ⟨by decide, usage_on_few_arguments demoOS ["nsumount", "1"] 0 (by decide)⟩

/-- C2: with at least two positional arguments, when the open of the namespace path
returns -1, `main` writes the one line `open: ` followed by the system error description to the
error stream, exits with the failure status, and its only system call is that open: no setns and
no umount is made. -/
theorem open_failure_stops {σ : Type} (O : OS σ) (prog pidarg path : String)
    (paths : List String) (s s1 : σ)
    (h_open : O.syscall (.sys_open (sprintf_proc_ns_mnt (atoi pidarg)) O_RDONLY) s = (-1, s1)) :
    main O (prog :: pidarg :: path :: paths) s =
      ⟨EXIT_FAILURE,
       ⟨s1, ["open: " ++ O.strerror (O.errno s1) ++ "\n"],
        [⟨.sys_open (sprintf_proc_ns_mnt (atoi pidarg)) O_RDONLY, -1, O.errno s1⟩]⟩⟩ ∧
      EXIT_FAILURE ≠ 0 := by
  refine ⟨?_, by decide⟩
  rw [main_open_failed O prog pidarg path paths s s1 h_open]
  simp [perror_line]

theorem open_failure_stops_witness :
    demoOS.syscall (.sys_open (sprintf_proc_ns_mnt (atoi "12345")) O_RDONLY) 0 = (-1, 2) ∧
      (main demoOS ["nsumount", "12345", "/mnt/a"] 0 =
          ⟨EXIT_FAILURE,
           ⟨2, ["open: " ++ demoOS.strerror (demoOS.errno 2) ++ "\n"],
            [⟨.sys_open (sprintf_proc_ns_mnt (atoi "12345")) O_RDONLY, -1, demoOS.errno 2⟩]⟩⟩ ∧
        EXIT_FAILURE ≠ 0) :=
  ⟨by decide, open_failure_stops demoOS "nsumount" "12345" "/mnt/a" [] 0 2 (by decide)⟩

/-- C3: with at least two positional arguments, when the open succeeds (returns a
descriptor other than -1) and setns returns -1, `main` writes the one line `setns: ` followed by
the system error description to the error stream, exits with the failure status, and its only
system calls are the open and the setns: no umount is made for any path. -/
theorem setns_failure_stops {σ : Type} (O : OS σ) (prog pidarg path : String)
    (paths : List String) (s s1 s2 : σ) (fd : Int)
    (h_open : O.syscall (.sys_open (sprintf_proc_ns_mnt (atoi pidarg)) O_RDONLY) s = (fd, s1))
    (h_fd : fd ≠ -1)
    (h_setns : O.syscall (.sys_setns fd 0) s1 = (-1, s2)) :
    main O (prog :: pidarg :: path :: paths) s =
      ⟨EXIT_FAILURE,
       ⟨s2, ["setns: " ++ O.strerror (O.errno s2) ++ "\n"],
        [⟨.sys_open (sprintf_proc_ns_mnt (atoi pidarg)) O_RDONLY, fd, O.errno s1⟩,
         ⟨.sys_setns fd 0, -1, O.errno s2⟩]⟩⟩ ∧
      EXIT_FAILURE ≠ 0 := by
  refine ⟨?_, by decide⟩
  rw [main_setns_failed O prog pidarg path paths s s1 s2 fd h_open h_fd h_setns]
  simp [perror_line]

theorem setns_failure_stops_witness :
    demoOS_noperm.syscall (.sys_open (sprintf_proc_ns_mnt (atoi "1")) O_RDONLY) 0 = (3, 0) ∧
      (3 : Int) ≠ -1 ∧
      demoOS_noperm.syscall (.sys_setns 3 0) 0 = (-1, 1) ∧
      (main demoOS_noperm ["nsumount", "1", "/mnt/a", "/mnt/b"] 0 =
          ⟨EXIT_FAILURE,
           ⟨1, ["setns: " ++ demoOS_noperm.strerror (demoOS_noperm.errno 1) ++ "\n"],
            [⟨.sys_open (sprintf_proc_ns_mnt (atoi "1")) O_RDONLY, 3, demoOS_noperm.errno 0⟩,
             ⟨.sys_setns 3 0, -1, demoOS_noperm.errno 1⟩]⟩⟩ ∧
        EXIT_FAILURE ≠ 0) :=
  ⟨by decide, by decide, by decide,
    setns_failure_stops demoOS_noperm "nsumount" "1" "/mnt/a" ["/mnt/b"] 0 0 1 3
      (by decide) (by decide) (by decide)⟩

/-- C4: with at least two positional arguments, when open and setns both succeed (neither
returns -1), then whatever the umount calls return, the system calls `main` makes are exactly: the
open of the namespace path with `O_RDONLY`, the setns on the descriptor that open returned (with
second argument 0), then one umount of each of `argv[2]`, ..., `argv[argc-1]`, in that order. -/
theorem calls_in_order {σ : Type} (O : OS σ) (prog pidarg path : String)
    (paths : List String) (s s1 s2 : σ) (fd r : Int)
    (h_open : O.syscall (.sys_open (sprintf_proc_ns_mnt (atoi pidarg)) O_RDONLY) s = (fd, s1))
    (h_fd : fd ≠ -1)
    (h_setns : O.syscall (.sys_setns fd 0) s1 = (r, s2))
    (h_r : r ≠ -1) :
    (main O (prog :: pidarg :: path :: paths) s).proc.trace.map Event.call =
      .sys_open (sprintf_proc_ns_mnt (atoi pidarg)) O_RDONLY :: .sys_setns fd 0 ::
        ((prog :: pidarg :: path :: paths).drop 2).map .sys_umount := by
  rw [main_joined O prog pidarg path paths s s1 s2 fd r h_open h_fd h_setns h_r]
  simp [umount_events_calls]

theorem calls_in_order_witness :
    demoOS.syscall (.sys_open (sprintf_proc_ns_mnt (atoi "1")) O_RDONLY) 0 = (3, 0) ∧
      (3 : Int) ≠ -1 ∧
      demoOS.syscall (.sys_setns 3 0) 0 = (0, 0) ∧
      (0 : Int) ≠ -1 ∧
      (main demoOS ["nsumount", "1", "/mnt/a", "/x", "/mnt/b"] 0).proc.trace.map Event.call =
        .sys_open (sprintf_proc_ns_mnt (atoi "1")) O_RDONLY :: .sys_setns 3 0 ::
          (["nsumount", "1", "/mnt/a", "/x", "/mnt/b"].drop 2).map .sys_umount :=
  ⟨by decide, by decide, by decide, by decide,
    calls_in_order demoOS "nsumount" "1" "/mnt/a" ["/x", "/mnt/b"] 0 0 0 3 0
      (by decide) (by decide) (by decide) (by decide)⟩

/-- C6: with at least two positional arguments, when open and setns both succeed, `main`
makes one umount for each supplied path `argv[2]`, ..., `argv[argc-1]`, in that order, with the
answers the kernel gives from the state setns left, and its exit status is 0 exactly when the
umount of every supplied path returned 0; when the umount of some supplied path returned another
value the exit status is the failure status, wherever in the list that path is and however many
others succeeded. -/
theorem status_reflects_failures {σ : Type} (O : OS σ) (prog pidarg path : String)
    (paths : List String) (s s1 s2 : σ) (fd r : Int)
    (h_open : O.syscall (.sys_open (sprintf_proc_ns_mnt (atoi pidarg)) O_RDONLY) s = (fd, s1))
    (h_fd : fd ≠ -1)
    (h_setns : O.syscall (.sys_setns fd 0) s1 = (r, s2))
    (h_r : r ≠ -1) :
    (main O (prog :: pidarg :: path :: paths) s).proc.trace =
        ⟨.sys_open (sprintf_proc_ns_mnt (atoi pidarg)) O_RDONLY, fd, O.errno s1⟩ ::
          ⟨.sys_setns fd 0, r, O.errno s2⟩ :: umount_events O (path :: paths) s2 ∧
      (umount_events O (path :: paths) s2).map Event.call =
        ((prog :: pidarg :: path :: paths).drop 2).map Syscall.sys_umount ∧
      ((main O (prog :: pidarg :: path :: paths) s).status = 0 ↔
        ∀ e ∈ umount_events O (path :: paths) s2, e.ret = 0) ∧
      ((∃ e ∈ umount_events O (path :: paths) s2, e.ret ≠ 0) →
        (main O (prog :: pidarg :: path :: paths) s).status = EXIT_FAILURE) ∧
      ((main O (prog :: pidarg :: path :: paths) s).status = 0 ↔
        ∀ e ∈ (main O (prog :: pidarg :: path :: paths) s).proc.trace,
          ∀ target, e.call = Syscall.sys_umount target → e.ret = 0) ∧
      ((∃ e ∈ (main O (prog :: pidarg :: path :: paths) s).proc.trace,
          ∃ target, e.call = Syscall.sys_umount target ∧ e.ret ≠ 0) →
        (main O (prog :: pidarg :: path :: paths) s).status = EXIT_FAILURE) ∧
      EXIT_FAILURE ≠ 0 := by
  have hm := main_joined O prog pidarg path paths s s1 s2 fd r h_open h_fd h_setns h_r
  have hnil := failed_umounts_eq_nil (main O (prog :: pidarg :: path :: paths) s).proc.trace
  have hnil2 := failed_umounts_eq_nil (umount_events O (path :: paths) s2)
  have hum := umount_events_are_umounts O (path :: paths) s2
  have hf : failed_umounts (main O (prog :: pidarg :: path :: paths) s).proc.trace =
      failed_umounts (umount_events O (path :: paths) s2) := by
    rw [hm]; simp [failed_umounts, Event.failed_umount]
  rw [hf] at hnil
  have hs : (main O (prog :: pidarg :: path :: paths) s).status =
      if failed_umounts (umount_events O (path :: paths) s2) = [] then 0 else EXIT_FAILURE := by
    rw [hm]
  have hall : failed_umounts (umount_events O (path :: paths) s2) = [] ↔
      ∀ e ∈ umount_events O (path :: paths) s2, e.ret = 0 := by
    rw [hnil2]
    constructor
    · intro h e he
      obtain ⟨t, _, htc⟩ := hum e he
      exact h e he t htc
    · intro h e he _ _
      exact h e he
  have hstat : (main O (prog :: pidarg :: path :: paths) s).status = 0 ↔
      failed_umounts (umount_events O (path :: paths) s2) = [] := by
    rw [hs]
    by_cases hf0 : failed_umounts (umount_events O (path :: paths) s2) = []
    · simp [hf0]
    · simp [hf0, EXIT_FAILURE]
  refine ⟨by rw [hm], ?_, ?_, ?_, ?_, ?_, by decide⟩
  · simpa using umount_events_calls O (path :: paths) s2
  · rw [hstat, hall]
  · rintro ⟨e, he, hr⟩
    have hne : failed_umounts (umount_events O (path :: paths) s2) ≠ [] := by
      intro h0
      exact hr (hall.mp h0 e he)
    rw [hs]; simp [hne]
  · rw [hstat, hnil]
  · rintro ⟨e, he, target, hc, hr⟩
    have hne : failed_umounts (umount_events O (path :: paths) s2) ≠ [] := by
      intro h0
      exact hr (hnil.mp h0 e he target hc)
    rw [hs]; simp [hne]

theorem status_reflects_failures_witness :
    demoOS.syscall (.sys_open (sprintf_proc_ns_mnt (atoi "1")) O_RDONLY) 0 = (3, 0) ∧
      (3 : Int) ≠ -1 ∧
      demoOS.syscall (.sys_setns 3 0) 0 = (0, 0) ∧
      (0 : Int) ≠ -1 ∧
      ((main demoOS ["nsumount", "1", "/mnt/a", "/x"] 0).proc.trace =
          ⟨.sys_open (sprintf_proc_ns_mnt (atoi "1")) O_RDONLY, 3, demoOS.errno 0⟩ ::
            ⟨.sys_setns 3 0, 0, demoOS.errno 0⟩ :: umount_events demoOS ("/mnt/a" :: ["/x"]) 0 ∧
        (umount_events demoOS ("/mnt/a" :: ["/x"]) 0).map Event.call =
          (("nsumount" :: "1" :: "/mnt/a" :: ["/x"]).drop 2).map Syscall.sys_umount ∧
        ((main demoOS ["nsumount", "1", "/mnt/a", "/x"] 0).status = 0 ↔
          ∀ e ∈ umount_events demoOS ("/mnt/a" :: ["/x"]) 0, e.ret = 0) ∧
        ((∃ e ∈ umount_events demoOS ("/mnt/a" :: ["/x"]) 0, e.ret ≠ 0) →
          (main demoOS ["nsumount", "1", "/mnt/a", "/x"] 0).status = EXIT_FAILURE) ∧
        ((main demoOS ["nsumount", "1", "/mnt/a", "/x"] 0).status = 0 ↔
          ∀ e ∈ (main demoOS ["nsumount", "1", "/mnt/a", "/x"] 0).proc.trace,
            ∀ target, e.call = Syscall.sys_umount target → e.ret = 0) ∧
        ((∃ e ∈ (main demoOS ["nsumount", "1", "/mnt/a", "/x"] 0).proc.trace,
            ∃ target, e.call = Syscall.sys_umount target ∧ e.ret ≠ 0) →
          (main demoOS ["nsumount", "1", "/mnt/a", "/x"] 0).status = EXIT_FAILURE) ∧
        EXIT_FAILURE ≠ 0) :=
  ⟨by decide, by decide, by decide, by decide,
    status_reflects_failures demoOS "nsumount" "1" "/mnt/a" ["/x"] 0 0 0 3 0
      (by decide) (by decide) (by decide) (by decide)⟩

/-- C5, as stated, fails on the empty path: `nsumount 1 ""` on the sample system opens and
joins the namespace, the umount of the empty path fails with `ENOENT`, and the line written is
the bare description, not the path followed by a colon, a space and the description. -/
theorem stderr_lines_counterexample :
    demoOS.syscall (.sys_open (sprintf_proc_ns_mnt (atoi "1")) O_RDONLY) 0 = (3, 0) ∧
      (3 : Int) ≠ -1 ∧
      demoOS.syscall (.sys_setns 3 0) 0 = (0, 0) ∧
      (0 : Int) ≠ -1 ∧
      failed_umounts (main demoOS ["nsumount", "1", ""] 0).proc.trace = [("", 2)] ∧
      (main demoOS ["nsumount", "1", ""] 0).proc.stderr = ["No such file or directory\n"] ∧
      ¬ ((main demoOS ["nsumount", "1", ""] 0).proc.stderr =
          (failed_umounts (main demoOS ["nsumount", "1", ""] 0).proc.trace).map
            (fun f => f.1 ++ ": " ++ demoOS.strerror f.2 ++ "\n")) := by
  decide

/-- C5 (amended): with at least two positional arguments, when open and setns both
succeed, the error stream holds exactly one line for each umount that failed, in the order of the
paths, and nothing for a umount that succeeded: for a failing path that is not the empty string
the line is the path, a colon, a space, the system error description and a newline; for a failing
empty path it is the description and a newline alone. The umount calls are those of the supplied
paths in order, so the number of lines is the number of failing paths, and nothing is written
when every umount succeeds. -/
theorem stderr_lines {σ : Type} (O : OS σ) (prog pidarg path : String)
    (paths : List String) (s s1 s2 : σ) (fd r : Int)
    (h_open : O.syscall (.sys_open (sprintf_proc_ns_mnt (atoi pidarg)) O_RDONLY) s = (fd, s1))
    (h_fd : fd ≠ -1)
    (h_setns : O.syscall (.sys_setns fd 0) s1 = (r, s2))
    (h_r : r ≠ -1) :
    (main O (prog :: pidarg :: path :: paths) s).proc.stderr =
        (failed_umounts (main O (prog :: pidarg :: path :: paths) s).proc.trace).map
          (fun f => if f.1 = "" then O.strerror f.2 ++ "\n"
            else f.1 ++ ": " ++ O.strerror f.2 ++ "\n") ∧
      ((main O (prog :: pidarg :: path :: paths) s).proc.trace.drop 2).map Event.call =
        (path :: paths).map Syscall.sys_umount ∧
      (main O (prog :: pidarg :: path :: paths) s).proc.stderr.length =
        (failed_umounts (main O (prog :: pidarg :: path :: paths) s).proc.trace).length ∧
      ((∀ e ∈ (main O (prog :: pidarg :: path :: paths) s).proc.trace,
          ∀ target, e.call = Syscall.sys_umount target → e.ret = 0) →
        (main O (prog :: pidarg :: path :: paths) s).proc.stderr = []) := by
  have hm := main_joined O prog pidarg path paths s s1 s2 fd r h_open h_fd h_setns h_r
  have hnil := failed_umounts_eq_nil (main O (prog :: pidarg :: path :: paths) s).proc.trace
  have hf : failed_umounts (main O (prog :: pidarg :: path :: paths) s).proc.trace =
      failed_umounts (umount_events O (path :: paths) s2) := by
    rw [hm]; simp [failed_umounts, Event.failed_umount]
  have hline : (fun f : String × Int => perror_line f.1 (O.strerror f.2)) =
      (fun f => if f.1 = "" then O.strerror f.2 ++ "\n"
        else f.1 ++ ": " ++ O.strerror f.2 ++ "\n") := by
    funext f
    by_cases h0 : f.1 = ""
    · simp [perror_line, h0]
    · simp [perror_line, h0]
  have hs : (main O (prog :: pidarg :: path :: paths) s).proc.stderr =
      (failed_umounts (main O (prog :: pidarg :: path :: paths) s).proc.trace).map
        (fun f => if f.1 = "" then O.strerror f.2 ++ "\n"
          else f.1 ++ ": " ++ O.strerror f.2 ++ "\n") := by
    rw [hf, ← hline, hm]
  refine ⟨hs, ?_, ?_, ?_⟩
  · rw [hm]; simp [umount_events_calls]
  · rw [hs]; simp
  · intro hall
    rw [hs, hnil.mpr hall]; rfl

theorem stderr_lines_witness :
    demoOS.syscall (.sys_open (sprintf_proc_ns_mnt (atoi "1")) O_RDONLY) 0 = (3, 0) ∧
      (3 : Int) ≠ -1 ∧
      demoOS.syscall (.sys_setns 3 0) 0 = (0, 0) ∧
      (0 : Int) ≠ -1 ∧
      ((main demoOS ["nsumount", "1", "/x", "/mnt/a", ""] 0).proc.stderr =
          (failed_umounts (main demoOS ["nsumount", "1", "/x", "/mnt/a", ""] 0).proc.trace).map
            (fun f => if f.1 = "" then demoOS.strerror f.2 ++ "\n"
              else f.1 ++ ": " ++ demoOS.strerror f.2 ++ "\n") ∧
        ((main demoOS ["nsumount", "1", "/x", "/mnt/a", ""] 0).proc.trace.drop 2).map Event.call =
          ["/x", "/mnt/a", ""].map Syscall.sys_umount ∧
        (main demoOS ["nsumount", "1", "/x", "/mnt/a", ""] 0).proc.stderr.length =
          (failed_umounts (main demoOS ["nsumount", "1", "/x", "/mnt/a", ""] 0).proc.trace).length ∧
        ((∀ e ∈ (main demoOS ["nsumount", "1", "/x", "/mnt/a", ""] 0).proc.trace,
            ∀ target, e.call = Syscall.sys_umount target → e.ret = 0) →
          (main demoOS ["nsumount", "1", "/x", "/mnt/a", ""] 0).proc.stderr = [])) :=
  ⟨by decide, by decide, by decide, by decide,
    stderr_lines demoOS "nsumount" "1" "/x" ["/mnt/a", ""] 0 0 0 3 0
      (by decide) (by decide) (by decide) (by decide)⟩

/-- C7: for every `n` with `0 ≤ n ≤ INT_MAX`, when the first positional argument is the
decimal rendering of `n`, the first system call of `main` is the open of the path `/proc/`
followed by the decimal rendering of `n` followed by `/ns/mnt`, with the flag `O_RDONLY`. -/
theorem opens_proc_pid_ns_mnt {σ : Type} (O : OS σ) (prog path : String) (paths : List String)
    (s : σ) (n : Int) (h0 : 0 ≤ n) (h1 : n ≤ INT_MAX) :
    (main O (prog :: toString n :: path :: paths) s).proc.trace.head?.map Event.call =
      some (.sys_open ("/proc/" ++ toString n ++ "/ns/mnt") O_RDONLY) := by
  obtain ⟨m, rfl⟩ := Int.eq_ofNat_of_zero_le h0
  have hm : m ≤ 2147483647 := by
    simp only [INT_MAX] at h1
    omega
  have ha : atoi (toString (m : Int)) = (m : Int) := atoi_toString m hm
  rw [(main_with_arguments O prog (toString (m : Int)) path paths s).1, ha]
  rfl

theorem opens_proc_pid_ns_mnt_witness :
    (0 : Int) ≤ 2147483647 ∧ (2147483647 : Int) ≤ INT_MAX ∧
      (main demoOS ("nsumount" :: toString (2147483647 : Int) :: "/mnt/a" :: []) 0
          ).proc.trace.head?.map Event.call =
        some (.sys_open ("/proc/" ++ toString (2147483647 : Int) ++ "/ns/mnt") O_RDONLY) :=
  ⟨by decide, by decide,
    opens_proc_pid_ns_mnt demoOS "nsumount" "/mnt/a" [] 0 2147483647 (by decide) (by decide)⟩

/-- C8: with at least two positional arguments, when the first one does not begin, after
optional white space and sign, with a decimal digit, `atoi` gives 0 without any error: `main`
runs exactly as if the argument were `0`, its first system call is the open of
`/proc/0/ns/mnt` with `O_RDONLY`, and whatever it writes to the error stream is written by
`perror` for the open, the setns or one of the paths, so no usage line is written. -/
theorem non_numeric_pid_reads_as_zero {σ : Type} (O : OS σ) (prog pidarg path : String)
    (paths : List String) (s : σ) (h : begins_numeric pidarg = false) :
    atoi pidarg = 0 ∧
      main O (prog :: pidarg :: path :: paths) s = main O (prog :: "0" :: path :: paths) s ∧
      (main O (prog :: pidarg :: path :: paths) s).proc.trace.head?.map Event.call =
        some (.sys_open "/proc/0/ns/mnt" O_RDONLY) ∧
      ∀ line ∈ (main O (prog :: pidarg :: path :: paths) s).proc.stderr,
        ∃ msg errnum, msg ∈ "open" :: "setns" :: path :: paths ∧
          line = perror_line msg (O.strerror errnum) := by
  have ha := atoi_not_numeric pidarg h
  have hw := main_with_arguments O prog pidarg path paths s
  refine ⟨ha, ?_, ?_, hw.2⟩
  · exact main_depends_on_atoi O prog pidarg "0" (path :: paths) s (by rw [ha]; decide)
  · rw [hw.1, ha]
    decide

theorem non_numeric_pid_reads_as_zero_witness :
    begins_numeric "- 12" = false ∧
      (atoi "- 12" = 0 ∧
        main demoOS ["nsumount", "- 12", "/mnt/a"] 0 = main demoOS ["nsumount", "0", "/mnt/a"] 0 ∧
        (main demoOS ["nsumount", "- 12", "/mnt/a"] 0).proc.trace.head?.map Event.call =
          some (.sys_open "/proc/0/ns/mnt" O_RDONLY) ∧
        ∀ line ∈ (main demoOS ["nsumount", "- 12", "/mnt/a"] 0).proc.stderr,
          ∃ msg errnum, msg ∈ "open" :: "setns" :: "/mnt/a" :: [] ∧
            line = perror_line msg (demoOS.strerror errnum)) :=
  ⟨by decide, non_numeric_pid_reads_as_zero demoOS "nsumount" "- 12" "/mnt/a" [] 0 (by decide)⟩

/-- C10: for every `pid` of type `int` (from -2147483648 to 2147483647) the text that
`sprintf` produces for `/proc/%d/ns/mnt` has at most 24 characters, each one byte long, so with
its terminating NUL it takes at most 25 bytes and fits in the 64 bytes of `file`. -/
theorem file_buffer_suffices (pid : Int) (h1 : INT_MIN ≤ pid) (h2 : pid ≤ INT_MAX) :
    (sprintf_proc_ns_mnt pid).length ≤ 24 ∧
      (sprintf_proc_ns_mnt pid).utf8ByteSize = (sprintf_proc_ns_mnt pid).length ∧
      (sprintf_proc_ns_mnt pid).utf8ByteSize + 1 ≤ FILE_BUF_SIZE :=
  sprintf_proc_ns_mnt_size pid h1 h2

theorem file_buffer_suffices_witness :
    INT_MIN ≤ -2147483648 ∧ (-2147483648 : Int) ≤ INT_MAX ∧
      ((sprintf_proc_ns_mnt (-2147483648)).length ≤ 24 ∧
        (sprintf_proc_ns_mnt (-2147483648)).utf8ByteSize =
          (sprintf_proc_ns_mnt (-2147483648)).length ∧
        (sprintf_proc_ns_mnt (-2147483648)).utf8ByteSize + 1 ≤ FILE_BUF_SIZE) :=
  ⟨by decide, by decide, file_buffer_suffices (-2147483648) (by decide) (by decide)⟩

/-- C9: for every process id argument and every two lists of paths that are permutations
of each other, when each path has the same umount outcome in both runs (every umount of a path
returns the value fixed for that path and, when it fails, leaves the `errno` fixed for that
path), the exit status of `main` is the same for both lists and the lines written to the error
stream are the same multiset. -/
theorem path_order_only_orders_lines {σ : Type} (O : OS σ) (prog pidarg : String)
    (paths1 paths2 : List String) (s : σ) (outcome : String → Int × Int)
    (hperm : paths1.Perm paths2)
    (h1 : ∀ e ∈ (main O (prog :: pidarg :: paths1) s).proc.trace,
      ∀ target, e.call = Syscall.sys_umount target →
        e.ret = (outcome target).1 ∧ (e.ret ≠ 0 → e.errno = (outcome target).2))
    (h2 : ∀ e ∈ (main O (prog :: pidarg :: paths2) s).proc.trace,
      ∀ target, e.call = Syscall.sys_umount target →
        e.ret = (outcome target).1 ∧ (e.ret ≠ 0 → e.errno = (outcome target).2)) :
    (main O (prog :: pidarg :: paths1) s).status = (main O (prog :: pidarg :: paths2) s).status ∧
      (↑(main O (prog :: pidarg :: paths1) s).proc.stderr : Multiset String) =
        ↑(main O (prog :: pidarg :: paths2) s).proc.stderr := by
  cases paths1 with
  | nil =>
    have : paths2 = [] := hperm.nil_eq.symm
    subst this
    exact ⟨rfl, rfl⟩
  | cons p1 r1 =>
    cases paths2 with
    | nil => exact absurd hperm.eq_nil (by simp)
    | cons p2 r2 =>
      rcases h_open : O.syscall (.sys_open (sprintf_proc_ns_mnt (atoi pidarg)) O_RDONLY) s with
        ⟨fd, s1⟩
      by_cases h_fd : fd = -1
      · subst h_fd
        rw [main_open_failed O prog pidarg p1 r1 s s1 h_open,
          main_open_failed O prog pidarg p2 r2 s s1 h_open]
        exact ⟨rfl, rfl⟩
      · rcases h_setns : O.syscall (.sys_setns fd 0) s1 with ⟨r, s2⟩
        by_cases h_r : r = -1
        · subst h_r
          rw [main_setns_failed O prog pidarg p1 r1 s s1 s2 fd h_open h_fd h_setns,
            main_setns_failed O prog pidarg p2 r2 s s1 s2 fd h_open h_fd h_setns]
          exact ⟨rfl, rfl⟩
        · rw [main_joined O prog pidarg p1 r1 s s1 s2 fd r h_open h_fd h_setns h_r] at h1 ⊢
          rw [main_joined O prog pidarg p2 r2 s s1 s2 fd r h_open h_fd h_setns h_r] at h2 ⊢
          have hp := failed_umounts_perm O outcome (p1 :: r1) (p2 :: r2) s2 s2 hperm
            (fun e he => h1 e (by simp [he])) (fun e he => h2 e (by simp [he]))
          refine ⟨?_, ?_⟩
          · by_cases hn : failed_umounts (umount_events O (p1 :: r1) s2) = []
            · have hn2 : failed_umounts (umount_events O (p2 :: r2) s2) = [] := by
                rw [hn] at hp
                exact hp.nil_eq.symm
              simp only [hn, hn2]
            · have hn2 : failed_umounts (umount_events O (p2 :: r2) s2) ≠ [] := by
                intro h0
                rw [h0] at hp
                exact hn hp.eq_nil
              simp only [hn, hn2]
          · exact Multiset.coe_eq_coe.mpr (hp.map _)

theorem path_order_only_orders_lines_witness :
    ["/x", "/mnt/a", ""].Perm ["", "/x", "/mnt/a"] ∧
      (∀ e ∈ (main demoOS ("nsumount" :: "1" :: ["/x", "/mnt/a", ""]) 0).proc.trace,
        ∀ target, e.call = Syscall.sys_umount target →
          e.ret = (demoOS.syscall (.sys_umount target) 0).1 ∧
            (e.ret ≠ 0 → e.errno = (demoOS.syscall (.sys_umount target) 0).2)) ∧
      (∀ e ∈ (main demoOS ("nsumount" :: "1" :: ["", "/x", "/mnt/a"]) 0).proc.trace,
        ∀ target, e.call = Syscall.sys_umount target →
          e.ret = (demoOS.syscall (.sys_umount target) 0).1 ∧
            (e.ret ≠ 0 → e.errno = (demoOS.syscall (.sys_umount target) 0).2)) ∧
      ((main demoOS ("nsumount" :: "1" :: ["/x", "/mnt/a", ""]) 0).status =
          (main demoOS ("nsumount" :: "1" :: ["", "/x", "/mnt/a"]) 0).status ∧
        (↑(main demoOS ("nsumount" :: "1" :: ["/x", "/mnt/a", ""]) 0).proc.stderr :
            Multiset String) =
          ↑(main demoOS ("nsumount" :: "1" :: ["", "/x", "/mnt/a"]) 0).proc.stderr) :=
  have ha : ∀ e ∈ (main demoOS ("nsumount" :: "1" :: ["/x", "/mnt/a", ""]) 0).proc.trace,
      ∀ target, e.call = Syscall.sys_umount target →
        e.ret = (demoOS.syscall (.sys_umount target) 0).1 ∧
          (e.ret ≠ 0 → e.errno = (demoOS.syscall (.sys_umount target) 0).2) := by
    have ht : (main demoOS ("nsumount" :: "1" :: ["/x", "/mnt/a", ""]) 0).proc.trace =
        [⟨.sys_open "/proc/1/ns/mnt" 0, 3, 0⟩, ⟨.sys_setns 3 0, 0, 0⟩,
         ⟨.sys_umount "/x", -1, 22⟩, ⟨.sys_umount "/mnt/a", 0, 22⟩,
         ⟨.sys_umount "", -1, 2⟩] := by decide
    intro e he target hc
    rw [ht] at he
    simp only [List.mem_cons, List.mem_singleton, List.not_mem_nil, or_false] at he
    rcases he with rfl | rfl | rfl | rfl | rfl <;> cases hc <;> decide
  have hb : ∀ e ∈ (main demoOS ("nsumount" :: "1" :: ["", "/x", "/mnt/a"]) 0).proc.trace,
      ∀ target, e.call = Syscall.sys_umount target →
        e.ret = (demoOS.syscall (.sys_umount target) 0).1 ∧
          (e.ret ≠ 0 → e.errno = (demoOS.syscall (.sys_umount target) 0).2) := by
    have ht : (main demoOS ("nsumount" :: "1" :: ["", "/x", "/mnt/a"]) 0).proc.trace =
        [⟨.sys_open "/proc/1/ns/mnt" 0, 3, 0⟩, ⟨.sys_setns 3 0, 0, 0⟩,
         ⟨.sys_umount "", -1, 2⟩, ⟨.sys_umount "/x", -1, 22⟩,
         ⟨.sys_umount "/mnt/a", 0, 22⟩] := by decide
    intro e he target hc
    rw [ht] at he
    simp only [List.mem_cons, List.mem_singleton, List.not_mem_nil, or_false] at he
    rcases he with rfl | rfl | rfl | rfl | rfl <;> cases hc <;> decide
  ⟨by decide, ha, hb,
    path_order_only_orders_lines demoOS "nsumount" "1" ["/x", "/mnt/a", ""]
      ["", "/x", "/mnt/a"] 0 (fun target => demoOS.syscall (.sys_umount target) 0)
      (by decide) ha hb⟩

end Nsumount
